import Mathlib

/-!
Verification of the caching and orchestration layer of `azure-identity-helpers`
(files `src/chained_token_credential.rs`, `src/azureauth_cli_credentials.rs`,
`src/devicecode_credentials.rs`; the `TokenCache` of `src/cache.rs` is not part
of the source tree and is modelled from the specification where needed).

The embedding is shallow: each Rust function is translated to a Lean function
over explicit inputs; the external collaborators (credential sources, the
subprocess executor, the JSON parser, the HTTP token exchange) are passed in as
values or functions, exactly as the Rust code receives them behind trait
objects.
-/

/-- Error kinds used by the repository (a subset of `azure_core::error::ErrorKind`).
Only the kinds that the embedded code constructs are listed. -/
inductive ErrorKind where
  | credential
  | dataConversion
  | other
deriving DecidableEq, Repr

/-- An `azure_core::error::Error`: a kind, a display message, and an optional
source error (`std::error::Error::source`).  The optional source is encoded by
two constructors to keep recursion structural. -/
inductive RsError where
  | leaf (kind : ErrorKind) (message : String)
  | withCause (kind : ErrorKind) (message : String) (cause : RsError)
deriving DecidableEq, Repr

/-- The kind of an error (`Error::kind`). -/
def RsError.kind : RsError → ErrorKind
  | .leaf k _ => k
  | .withCause k _ _ => k

/-- The display message of the error itself (`Error::to_string`, top level only). -/
def RsError.message : RsError → String
  | .leaf _ m => m
  | .withCause _ m _ => m

/-- The full cause chain of an error: its own display message followed by the
messages of every error reachable through `source()`, in order.  This is the
`stack` built by the `while let` loop in `format_aggregate_error`. -/
def RsError.chain : RsError → List String
  | .leaf _ m => [m]
  | .withCause _ m c => m :: c.chain

/-- An `azure_core::credentials::AccessToken`: secret plus absolute expiry
(`expires_on`, a UTC timestamp modelled as an integer). -/
structure AccessToken where
  token : String
  expires_on : Int
deriving DecidableEq, Repr

/-- The result of one `get_token` call on a credential source. -/
abbrev SourceResp := Except RsError AccessToken

/-- `format_aggregate_error` from `src/chained_token_credential.rs`: for each
error, walk the cause chain collecting `to_string` of every link and join with
" - "; join the per-error strings with newlines. -/
def format_aggregate_error (errors : List RsError) : String :=
  String.intercalate "\n"
    (errors.map (fun e => String.intercalate " - " e.chain))

/-- Message prefix of the aggregate error built by `get_token_impl`. -/
def aggregateHeader : String :=
  "Multiple errors were encountered while attempting to authenticate:\n"

/-- Loop body of `ChainedTokenCredential::get_token_impl`.  `resp` lists, in
configuration order, the response each remaining source would give to this
call; `idx` is the position of the first element of `resp` in the full source
list; `errors` holds the errors recorded so far (in order).  Besides the
result — `Ok((source, token))` with the source represented by its index, or
the aggregate error — the translation returns the indices of the sources whose
`get_token` was invoked, in invocation order. -/
def get_token_impl_go (resp : List SourceResp) (idx : Nat) (errors : List RsError) :
    Except RsError (Nat × AccessToken) × List Nat :=
  match resp with
  | [] =>
    (Except.error (RsError.leaf ErrorKind.credential
      (aggregateHeader ++ format_aggregate_error errors)), [])
  | r :: rest =>
    match r with
    | Except.ok token => (Except.ok (idx, token), [idx])
    | Except.error e =>
      let next := get_token_impl_go rest (idx + 1) (errors ++ [e])
      (next.1, idx :: next.2)

/-- `ChainedTokenCredential::get_token_impl`: try the sources in configuration
order, return the first success together with the winning source, otherwise
the aggregate `ErrorKind::Credential` error. -/
def get_token_impl (resp : List SourceResp) :
    Except RsError (Nat × AccessToken) × List Nat :=
  get_token_impl_go resp 0 []

/-- The mutable state of a `ChainedTokenCredential` that the embedded
`get_token` reads and writes: the `retry_sources` option and the
`successful_credential` slot.  The pinned source (an `Arc` cloned out of
`sources` by `get_token_impl`) is represented by its index in the source
list. -/
structure ChainedTokenCredential where
  retry_sources : Bool
  successful_credential : Option Nat
deriving DecidableEq, Repr

/-- Result of one inherent `ChainedTokenCredential::get_token` call, together
with the observable trace the claims talk about: the value left in the
`successful_credential` slot, the indices of the sources invoked (in order),
and whether the ordered search (`get_token_impl`) ran. -/
structure ChainCallResult where
  result : SourceResp
  successful_credential : Option Nat
  invoked : List Nat
  ranSearch : Bool
deriving Repr

/-- Delegating a call to the pinned source `entry.get_token(scopes, options)`.
In Rust the pin holds the source itself, so it is always a source of the
chain; the out-of-range default is unreachable and exists only because the
model addresses sources by index. -/
def delegate (resp : List SourceResp) (entry : Nat) : SourceResp :=
  match resp.get? entry with
  | some r => r
  | none => Except.error (RsError.leaf ErrorKind.other "pinned source index out of range")

/-- The `retry_sources = false` branch of the inherent
`ChainedTokenCredential::get_token`, with the two lock acquisitions made
explicit: `r1` is the value of `successful_credential` observed under the read
lock, `r2` the value observed after acquiring the write lock (they can differ
when another caller populated the slot in between).  Following the code: if
`r1` is populated, delegate; otherwise take the write lock, re-check `r2` and
delegate if populated; otherwise run the ordered search and store the winning
source (the `?` propagates a search failure before the store). -/
def get_token_noretry (r1 r2 : Option Nat) (resp : List SourceResp) : ChainCallResult :=
  match r1 with
  | some entry => ⟨delegate resp entry, r1, [entry], false⟩
  | none =>
    match r2 with
    | some entry => ⟨delegate resp entry, r2, [entry], false⟩
    | none =>
      match get_token_impl resp with
      | (Except.ok (i, token), inv) => ⟨Except.ok token, some i, inv, true⟩
      | (Except.error e, inv) => ⟨Except.error e, none, inv, true⟩

/-- The inherent `ChainedTokenCredential::get_token` (a single, sequential
call: both lock observations coincide with the current slot value).  With
`retry_sources = true` the ordered search runs and the slot is neither read
nor written; otherwise the double-checked path of `get_token_noretry` runs. -/
def ChainedTokenCredential.get_token (c : ChainedTokenCredential)
    (resp : List SourceResp) : ChainCallResult :=
  if c.retry_sources then
    match get_token_impl resp with
    | (res, inv) => ⟨res.map Prod.snd, c.successful_credential, inv, true⟩
  else
    get_token_noretry c.successful_credential c.successful_credential resp

/-- The public surface of `ChainedTokenCredential` in
`src/chained_token_credential.rs`: `pub fn new`, `pub fn add_source`, and
`get_token` via the `TokenCredential` trait impl.  The inherent `get_token` is
private; no other method exists in the file. -/
def ChainedTokenCredential.publicMethods : List String :=
  ["new", "add_source", "get_token"]

/-- Modelled from the spec: `src/cache.rs` (the `TokenCache` named by `lib.rs`)
is not part of the source tree.  Per the spec, a cache maps a key (the scope
list) to an optionally cached token; this is the per-key slot state of one
`TokenCache`, ignoring the in-flight coordination that only matters under
concurrency. -/
abbrev CacheMap := List String → Option AccessToken

/-- Result of one sequential `TokenCache::get_token` call: the returned value,
the cache state afterwards, and whether the fetch callback was invoked. -/
structure CacheCallResult where
  result : SourceResp
  cache : CacheMap
  fetched : Bool

/-- Modelled from the spec: `TokenCache::clear()` "invalidates all cached
entries ... so that the next `get_token` call for any key performs a fresh
fetch/search" (`src/cache.rs` is missing from the tree). -/
def TokenCache.clear (_cache : CacheMap) : CacheMap :=
  fun _ => none

/-- Modelled from the spec: `TokenCache::get_token(key, fetch)` steps 1-4 of
section 4.1 (`src/cache.rs` is missing from the tree): return an unexpired
cached token without fetching; otherwise run the fetch, store the token on
success (only then), and propagate the result.  Expiry uses `now >= expiry`
as invalid. -/
def TokenCache.get_token (cache : CacheMap) (key : List String) (now : Int)
    (fetch : SourceResp) : CacheCallResult :=
  match cache key with
  | some tok =>
    if now < tok.expires_on then
      ⟨Except.ok tok, cache, false⟩
    else
      match fetch with
      | Except.ok t => ⟨Except.ok t, fun k => if k = key then some t else cache k, true⟩
      | Except.error e => ⟨Except.error e, cache, true⟩
  | none =>
    match fetch with
    | Except.ok t => ⟨Except.ok t, fun k => if k = key then some t else cache k, true⟩
    | Except.error e => ⟨Except.error e, cache, true⟩

/-- The `std::io::ErrorKind` values the embedded code distinguishes:
`AzureauthCliCredential::get_access_token` matches on `NotFound` and treats
every other kind uniformly (carrying its debug form in the message). -/
inductive IoErrorKind where
  | notFound
  | otherKind (debug : String)
deriving DecidableEq, Repr

/-- Debug formatting of an `std::io::ErrorKind` ( `{error_kind:?}` ). -/
def IoErrorKind.debugStr : IoErrorKind → String
  | .notFound => "NotFound"
  | .otherKind d => d

/-- Output of a completed subprocess as the executor returns it: the success
bit of `status`, and decoded `stdout`/`stderr`. -/
structure ProcessOutput where
  success : Bool
  stdout : String
  stderr : String
deriving DecidableEq, Repr

/-- Parsed `CliTokenResponse` of `src/azureauth_cli_credentials.rs` (fields
`token` and `expiration_date` of the azureauth JSON output). -/
structure CliTokenResponse where
  access_token : String
  expires_on : Int
deriving DecidableEq, Repr

/-- `AzureauthCliCredential::get_access_token` from
`src/azureauth_cli_credentials.rs`, with its external collaborators passed as
values: `findResult` is what `find_azureauth()` returned (the executable name,
if any), `runResult` what `self.executor.run` produced on the assembled
command, and `parse` stands for `from_json` on the captured stdout.  The
command-vector assembly is pure data handed to the executor and is not
modelled.  Error paths follow the code: no executable found or an io
`NotFound` error yield `ErrorKind::Other` "azureauth CLI not installed";
another io error yields `ErrorKind::Other` "Unknown error of kind: ...";
a non-success exit status yields `ErrorKind::Credential`
"'azureauth' command failed: <stderr>"; a parse failure propagates. -/
def AzureauthCliCredential.get_access_token (findResult : Option String)
    (runResult : Except IoErrorKind ProcessOutput)
    (parse : String → Except RsError CliTokenResponse) : SourceResp :=
  match findResult with
  | none => Except.error (RsError.leaf ErrorKind.other "azureauth CLI not installed")
  | some _cmd_name =>
    match runResult with
    | Except.error e =>
      match e with
      | IoErrorKind.notFound =>
        Except.error (RsError.leaf ErrorKind.other "azureauth CLI not installed")
      | error_kind =>
        Except.error (RsError.leaf ErrorKind.other
          ("Unknown error of kind: " ++ error_kind.debugStr))
    | Except.ok output =>
      if !output.success then
        Except.error (RsError.leaf ErrorKind.credential
          ("'azureauth' command failed: " ++ output.stderr))
      else
        match parse output.stdout with
        | Except.error e => Except.error e
        | Except.ok token_response =>
          Except.ok ⟨token_response.access_token, token_response.expires_on⟩

/-- A successful `RefreshTokenResponse` from `src/refresh_token.rs`, reduced
to the fields `DeviceCodeCredential::get_access_token` reads. -/
structure RefreshTokenResponseM where
  access_token : String
  refresh_token : String
  expires_in : Int
deriving DecidableEq, Repr

/-- The authorization the device-code polling loop eventually breaks with, as
`DeviceCodeCredential::get_access_token` reads it. -/
structure DeviceAuthM where
  access_token : String
  expires_in : Int
  refresh_token : Option String
deriving DecidableEq, Repr

/-- The refresh-token map of a `DeviceCodeCredential`
(`Mutex<BTreeMap<Vec<String>, Secret>>`), as a key-indexed partial map. -/
abbrev RefreshTokenMap := List String → Option String

/-- `DeviceCodeCredential::get_access_token` from
`src/devicecode_credentials.rs`, returning the call's result and the
refresh-token map afterwards.  External collaborators are passed as values:
`exchange` stands for `refresh_token::exchange` applied to the stored refresh
token, `flow` for the outcome of the device-code flow (the first `Ok`
response of the stream, or the stream-ended error), and `now` for the clock
behind `convert_expires_in`.  Following the code: a stored refresh token for
the scope list is removed from the map first; on a successful exchange the
new refresh token is inserted and the token returned; on a failed exchange
the error propagates with the old token already removed.  Without a stored
token the interactive flow runs and its refresh token, when present, is
stored. -/
def DeviceCodeCredential.get_access_token (scopes : List String)
    (refresh_tokens : RefreshTokenMap)
    (exchange : String → Except RsError RefreshTokenResponseM)
    (flow : Except RsError DeviceAuthM) (now : Int) :
    SourceResp × RefreshTokenMap :=
  match refresh_tokens scopes with
  | some refresh_token =>
    let removed : RefreshTokenMap := fun k => if k = scopes then none else refresh_tokens k
    match exchange refresh_token with
    | Except.error e => (Except.error e, removed)
    | Except.ok response =>
      (Except.ok ⟨response.access_token, now + response.expires_in⟩,
       fun k => if k = scopes then some response.refresh_token else removed k)
  | none =>
    match flow with
    | Except.error e => (Except.error e, refresh_tokens)
    | Except.ok auth =>
      let token : AccessToken := ⟨auth.access_token, now + auth.expires_in⟩
      match auth.refresh_token with
      | some r => (Except.ok token, fun k => if k = scopes then some r else refresh_tokens k)
      | none => (Except.ok token, refresh_tokens)

/-- Modelled from the spec: `src/cache.rs` is missing from the tree, so the
single-flight `TokenCache` of section 4.1 is modelled as an interleaved
transition system for one cache key.  A caller thread is `start` (has not yet
inspected the cache), `waiting` (joined the in-flight fetch), or `done` with
the result it received.  A fetch failure carries no payload. -/
inductive ThreadSt (τ : Type) where
  | start
  | waiting
  | done (r : Except Unit τ)
deriving Repr

/-- Modelled from the spec: the shared state of one cache key.  `slot` is the
cached token, `flight` an in-flight fetch (its attempt number paired with the
threads awaiting it), `fetches` counts fetch invocations, and `threads` gives
each caller's state. -/
structure CacheSysState (τ : Type) where
  slot : Option τ
  flight : Option (Nat × List Nat)
  fetches : Nat
  threads : Nat → ThreadSt τ

/-- Initial state: empty slot, no fetch in flight, every caller yet to run. -/
def initCacheState (τ : Type) : CacheSysState τ :=
  ⟨none, none, 0, fun _ => ThreadSt.start⟩

/-- Modelled from the spec, section 4.1: the atomic steps of `N` concurrent
`get_token` callers for one key, where `fr k` is the outcome of the `k`-th
fetch invocation.  A caller that finds a cached token returns it (`hit`); on a
miss it joins the in-flight fetch if there is one (`join`) and otherwise
starts the single fetch (`beginFetch`); a fetch completion stores the token on
success and hands its result to every waiter (`complete`). -/
inductive CacheStep (N : Nat) {τ : Type} (fr : Nat → Except Unit τ) :
    CacheSysState τ → CacheSysState τ → Prop where
  | hit (s : CacheSysState τ) (i : Nat) (tok : τ) (hi : i < N)
      (hs : s.threads i = ThreadSt.start) (ht : s.slot = some tok) :
      CacheStep N fr s ⟨s.slot, s.flight, s.fetches,
        fun j => if j = i then ThreadSt.done (Except.ok tok) else s.threads j⟩
  | beginFetch (s : CacheSysState τ) (i : Nat) (hi : i < N)
      (hs : s.threads i = ThreadSt.start) (hslot : s.slot = none)
      (hf : s.flight = none) :
      CacheStep N fr s ⟨none, some (s.fetches, [i]), s.fetches + 1,
        fun j => if j = i then ThreadSt.waiting else s.threads j⟩
  | join (s : CacheSysState τ) (i : Nat) (k : Nat) (ws : List Nat) (hi : i < N)
      (hs : s.threads i = ThreadSt.start) (hslot : s.slot = none)
      (hf : s.flight = some (k, ws)) :
      CacheStep N fr s ⟨s.slot, some (k, i :: ws), s.fetches,
        fun j => if j = i then ThreadSt.waiting else s.threads j⟩
  | complete (s : CacheSysState τ) (k : Nat) (ws : List Nat)
      (hf : s.flight = some (k, ws)) :
      CacheStep N fr s
        ⟨(match fr k with | Except.ok t => some t | Except.error _ => s.slot),
         none, s.fetches,
         fun j => if j ∈ ws then ThreadSt.done (fr k) else s.threads j⟩

/-- States reachable from the initial state by the interleaving semantics. -/
def CacheReachable (N : Nat) {τ : Type} (fr : Nat → Except Unit τ)
    (s : CacheSysState τ) : Prop :=
  Relation.ReflTransGen (CacheStep N fr) (initCacheState τ) s

/-- Inductive invariant for the single-flight property when every fetch
attempt yields the same token `tok`. -/
def CacheInv {τ : Type} (tok : τ) (s : CacheSysState τ) : Prop :=
  s.fetches ≤ 1
  ∧ (s.slot = none ∨ s.slot = some tok)
  ∧ (∀ t, s.slot = some t → s.fetches = 1)
  ∧ (∀ k ws, s.flight = some (k, ws) → s.fetches = 1 ∧ s.slot = none)
  ∧ (s.slot = none → s.flight = none → s.fetches = 0)
  ∧ (∀ i r, s.threads i = ThreadSt.done r → r = Except.ok tok ∧ s.fetches = 1)

/-- Invariant for the failure regime: every fetch fails, so the slot stays
empty and every finished caller holds a failure. -/
def CacheFailInv {τ : Type} (s : CacheSysState τ) : Prop :=
  s.slot = none
  ∧ (∀ i r, s.threads i = ThreadSt.done r → r = Except.error ())

/-- A parse stub standing for `from_json` where its value is irrelevant. -/
def parseUnused : String → Except RsError CliTokenResponse :=
  fun _ => Except.error (RsError.leaf ErrorKind.dataConversion "unused")

/-- Shifting a `List.range` by a constant: prepending `idx` to the shifted
range over `n` gives the shifted range over `n + 1`. -/
theorem range_map_shift (idx n : Nat) :
    idx :: (List.range n).map (fun m => idx + 1 + m) =
      (List.range (n + 1)).map (fun m => idx + m) := by
  rw [List.range_succ_eq_map]
  have hf : (fun m => idx + 1 + m) = fun m => idx + Nat.succ m := by
    funext m
    omega
  simp [List.map_map, Function.comp_def, hf]

/-- Unrolling `get_token_impl_go` to the first successful source: when source
`i` (relative to the remaining list) succeeds and every earlier source fails,
the loop returns the success at absolute index `idx + i` having invoked
exactly the sources before and including it, in order. -/
theorem get_token_impl_go_first_ok (resp : List SourceResp) (idx : Nat)
    (errors : List RsError) (i : Nat) (t : AccessToken)
    (hok : resp.get? i = some (Except.ok t))
    (hbefore : ∀ j, j < i → ∃ e, resp.get? j = some (Except.error e)) :
    get_token_impl_go resp idx errors =
      (Except.ok (idx + i, t), (List.range (i + 1)).map (fun m => idx + m)) := by
  induction resp generalizing idx errors i with
  | nil => simp at hok
  | cons r rest ih =>
    cases i with
    | zero =>
      simp only [List.get?] at hok
      cases hok
      simp [get_token_impl_go, List.range_succ]
    | succ n =>
      obtain ⟨e, he⟩ := hbefore 0 (Nat.succ_pos n)
      simp only [List.get?] at he
      cases he
      simp only [List.get?] at hok
      have hb : ∀ j, j < n → ∃ e, rest.get? j = some (Except.error e) := by
        intro j hj
        obtain ⟨e2, he2⟩ := hbefore (j + 1) (Nat.succ_lt_succ hj)
        simp only [List.get?] at he2
        exact ⟨e2, he2⟩
      simp only [get_token_impl_go, ih rest.length, ih _ _ _ hok hb]
      rw [Prod.mk.injEq]
      constructor
      · congr 2
        omega
      · exact range_map_shift idx (n + 1)

/-- When every source fails, the loop of `get_token_impl_go` accumulates the
errors in order and produces the aggregate `Credential` error, having invoked
every source. -/
theorem get_token_impl_go_all_fail (errs : List RsError) (idx : Nat)
    (acc : List RsError) :
    get_token_impl_go (errs.map Except.error) idx acc =
      (Except.error (RsError.leaf ErrorKind.credential
        (aggregateHeader ++ format_aggregate_error (acc ++ errs))),
       (List.range errs.length).map (fun m => idx + m)) := by
  induction errs generalizing idx acc with
  | nil => simp [get_token_impl_go]
  | cons e rest ih =>
    simp only [List.map_cons, get_token_impl_go, ih]
    rw [Prod.mk.injEq]
    constructor
    · simp
    · exact range_map_shift idx rest.length

/-- The invoked-source trace of `get_token_impl` is always an initial segment
of the source indices, starting at the first source. -/
theorem get_token_impl_invoked_range (resp : List SourceResp) :
    ∃ n, n ≤ resp.length ∧ (get_token_impl resp).2 = List.range n := by
  suffices h : ∀ (resp : List SourceResp) (idx : Nat) (errors : List RsError),
      ∃ n, n ≤ resp.length ∧
        (get_token_impl_go resp idx errors).2 = (List.range n).map (fun m => idx + m) by
    obtain ⟨n, hn, hinv⟩ := h resp 0 []
    refine ⟨n, hn, ?_⟩
    simpa [get_token_impl] using hinv
  intro resp
  induction resp with
  | nil => exact fun idx errors => ⟨0, Nat.le_refl 0, by simp [get_token_impl_go]⟩
  | cons r rest ih =>
    intro idx errors
    cases r with
    | ok t => exact ⟨1, by simp, by simp [get_token_impl_go, List.range_succ]⟩
    | error e =>
      obtain ⟨n, hn, hinv⟩ := ih (idx + 1) (errors ++ [e])
      refine ⟨n + 1, by simpa using hn, ?_⟩
      simp only [get_token_impl_go, hinv]
      exact range_map_shift idx n

/-- C2: ordered-search determinism — when source `i` returns `Ok` and every
source before it fails, `get_token_impl` invokes sources `0, 1, ..., i` in
configuration order, returns source `i`'s token, and never invokes any source
after the first success. -/
theorem chain_ordered_search_first_success (resp : List SourceResp) (i : Nat)
    (t : AccessToken)
    (hok : resp.get? i = some (Except.ok t))
    (hbefore : ∀ j, j < i → ∃ e, resp.get? j = some (Except.error e)) :
    get_token_impl resp = (Except.ok (i, t), List.range (i + 1)) ∧
      ∀ j, i < j → j ∉ (get_token_impl resp).2 := by
  have h := get_token_impl_go_first_ok resp 0 [] i t hok hbefore
  have heq : get_token_impl resp = (Except.ok (i, t), List.range (i + 1)) := by
    simpa [get_token_impl] using h
  refine ⟨heq, ?_⟩
  intro j hj hmem
  rw [heq] at hmem
  simp only [List.mem_range] at hmem
  omega

/-- C2 witness: with sources `[A(fails), B(succeeds), C(succeeds)]` the search
returns B's token, invokes exactly sources 0 and 1, and source 2 (C) is never
invoked. -/
theorem chain_ordered_search_first_success_witness :
    get_token_impl [Except.error (RsError.leaf ErrorKind.other "A failed"),
        Except.ok ⟨"tokenB", 100⟩, Except.ok ⟨"tokenC", 100⟩] =
      (Except.ok (1, ⟨"tokenB", 100⟩), List.range 2) ∧
      ∀ j, 1 < j →
        j ∉ (get_token_impl [Except.error (RsError.leaf ErrorKind.other "A failed"),
          Except.ok ⟨"tokenB", 100⟩, Except.ok ⟨"tokenC", 100⟩]).2 :=
  chain_ordered_search_first_success _ 1 _ rfl
    (fun j hj => by
      interval_cases j
      exact ⟨RsError.leaf ErrorKind.other "A failed", rfl⟩)

/-- C3: aggregate error — when every source fails, the chain fails with one
`Credential`-kind error whose text is the fixed prefix followed by each
source's full cause chain (every message reachable through `source()`, joined
by " - "), the chains separated by newlines in source order; concretely, two
sources failing with "not installed" and "denied" produce exactly
"not installed\ndenied" as the aggregate body, both messages present in
source order. -/
theorem chain_aggregate_error_content :
    (∀ errs : List RsError,
      get_token_impl (errs.map Except.error) =
        (Except.error (RsError.leaf ErrorKind.credential
          (aggregateHeader ++ String.intercalate "\n"
            (errs.map (fun e => String.intercalate " - " e.chain)))),
         List.range errs.length)) ∧
    format_aggregate_error
        [RsError.leaf ErrorKind.other "not installed",
         RsError.leaf ErrorKind.other "denied"] = "not installed\ndenied" := by
  constructor
  · intro errs
    have h := get_token_impl_go_all_fail errs 0 []
    simpa [get_token_impl, format_aggregate_error] using h
  · rfl

/-- C9: empty chain — a `ChainedTokenCredential` with no sources always fails
with the aggregate `Credential` error whose message is the aggregate prefix
followed by the empty list, under both policies; it never returns a token. -/
theorem chain_empty_sources :
    get_token_impl [] =
      (Except.error (RsError.leaf ErrorKind.credential
        "Multiple errors were encountered while attempting to authenticate:\n"), []) ∧
    (ChainedTokenCredential.get_token ⟨true, none⟩ []).result =
      Except.error (RsError.leaf ErrorKind.credential
        "Multiple errors were encountered while attempting to authenticate:\n") ∧
    (ChainedTokenCredential.get_token ⟨false, none⟩ []).result =
      Except.error (RsError.leaf ErrorKind.credential
        "Multiple errors were encountered while attempting to authenticate:\n") := by
  have hmsg : aggregateHeader ++ format_aggregate_error [] =
      "Multiple errors were encountered while attempting to authenticate:\n" := by
    decide
  refine ⟨?_, ?_, ?_⟩ <;>
    simp [get_token_impl, get_token_impl_go, ChainedTokenCredential.get_token,
      get_token_noretry, hmsg, Except.map]

/-- C4: pinning invariant — with `retry_sources = false` and a pinned source
`i`, a call is routed directly to source `i` (only `i` is invoked, the
ordered search does not run), its result — including a failure — is returned
to the caller unchanged with no fallback, and the pin persists through the
failure. -/
theorem chain_pinned_routing (c : ChainedTokenCredential) (resp : List SourceResp)
    (i : Nat)
    (hretry : c.retry_sources = false)
    (hpin : c.successful_credential = some i) :
    (c.get_token resp).invoked = [i] ∧
    (c.get_token resp).ranSearch = false ∧
    (c.get_token resp).result = delegate resp i ∧
    (c.get_token resp).successful_credential = some i ∧
    (∀ e, resp.get? i = some (Except.error e) →
      (c.get_token resp).result = Except.error e) := by
  have hres : c.get_token resp = ⟨delegate resp i, some i, [i], false⟩ := by
    simp only [ChainedTokenCredential.get_token, hretry, hpin, get_token_noretry]
    rfl
  rw [hres]
  refine ⟨rfl, rfl, rfl, rfl, ?_⟩
  intro e he
  have he2 : resp[i]? = some (Except.error e) := by simpa using he
  simp [delegate, he2]

/-- C4 witness: chain pinned to source 1 whose call now fails — the failure
is observed directly, source 2 is not consulted, the pin survives. -/
theorem chain_pinned_routing_witness :
    ((ChainedTokenCredential.mk false (some 1)).get_token
        [Except.ok ⟨"tokenA", 100⟩,
         Except.error (RsError.leaf ErrorKind.other "B now fails"),
         Except.ok ⟨"tokenC", 100⟩]).invoked = [1] ∧
    ((ChainedTokenCredential.mk false (some 1)).get_token
        [Except.ok ⟨"tokenA", 100⟩,
         Except.error (RsError.leaf ErrorKind.other "B now fails"),
         Except.ok ⟨"tokenC", 100⟩]).ranSearch = false ∧
    ((ChainedTokenCredential.mk false (some 1)).get_token
        [Except.ok ⟨"tokenA", 100⟩,
         Except.error (RsError.leaf ErrorKind.other "B now fails"),
         Except.ok ⟨"tokenC", 100⟩]).result =
      delegate [Except.ok ⟨"tokenA", 100⟩,
         Except.error (RsError.leaf ErrorKind.other "B now fails"),
         Except.ok ⟨"tokenC", 100⟩] 1 ∧
    ((ChainedTokenCredential.mk false (some 1)).get_token
        [Except.ok ⟨"tokenA", 100⟩,
         Except.error (RsError.leaf ErrorKind.other "B now fails"),
         Except.ok ⟨"tokenC", 100⟩]).successful_credential = some 1 ∧
    (∀ e, [Except.ok (AccessToken.mk "tokenA" 100),
         Except.error (RsError.leaf ErrorKind.other "B now fails"),
         Except.ok ⟨"tokenC", 100⟩].get? 1 = some (Except.error e) →
      ((ChainedTokenCredential.mk false (some 1)).get_token
        [Except.ok ⟨"tokenA", 100⟩,
         Except.error (RsError.leaf ErrorKind.other "B now fails"),
         Except.ok ⟨"tokenC", 100⟩]).result = Except.error e) :=
  chain_pinned_routing (ChainedTokenCredential.mk false (some 1)) _ 1 rfl rfl

/-- C5: double-checked acquire — the ordered search of the
`retry_sources = false` path runs exactly when both the shared-read
observation `r1` and the post-write-lock re-check `r2` find the slot empty; a
populated `r1` delegates immediately; an empty `r1` with a populated re-check
`r2` delegates to that source without running the search; and when the search
runs and succeeds, the winning source is stored into the slot. -/
theorem chain_double_checked_acquire (r1 r2 : Option Nat) (resp : List SourceResp) :
    ((get_token_noretry r1 r2 resp).ranSearch = true ↔ r1 = none ∧ r2 = none) ∧
    (∀ i, r1 = some i →
      get_token_noretry r1 r2 resp = ⟨delegate resp i, some i, [i], false⟩) ∧
    (∀ i, r1 = none → r2 = some i →
      get_token_noretry r1 r2 resp = ⟨delegate resp i, some i, [i], false⟩) ∧
    (r1 = none → r2 = none → ∀ i t, (get_token_impl resp).1 = Except.ok (i, t) →
      get_token_noretry r1 r2 resp =
        ⟨Except.ok t, some i, (get_token_impl resp).2, true⟩) := by
  refine ⟨?_, ?_, ?_, ?_⟩
  · cases r1 with
    | some i => simp [get_token_noretry]
    | none =>
      cases r2 with
      | some i => simp [get_token_noretry]
      | none =>
        simp only [get_token_noretry]
        rcases h : get_token_impl resp with ⟨res, inv⟩
        cases res with
        | ok p => cases p; simp
        | error e => simp
  · intro i h1
    subst h1
    rfl
  · intro i h1 h2
    subst h1
    subst h2
    rfl
  · intro h1 h2 i t hok
    subst h1
    subst h2
    simp only [get_token_noretry]
    rcases h : get_token_impl resp with ⟨res, inv⟩
    rw [h] at hok
    simp only at hok
    subst hok
    rfl

/-- C5 witness: a caller whose shared read found the slot empty but whose
re-check under the write lock finds it populated with source 0 delegates to
source 0 without running the ordered search. -/
theorem chain_double_checked_acquire_witness :
    get_token_noretry none (some 0) [Except.ok ⟨"tokenA", 100⟩] =
      ⟨delegate [Except.ok ⟨"tokenA", 100⟩] 0, some 0, [0], false⟩ :=
  (chain_double_checked_acquire none (some 0) [Except.ok ⟨"tokenA", 100⟩]).2.2.1 0
    rfl rfl

/-- C6: with `retry_sources = true` every call that reaches the chain re-runs
the ordered search — the search runs, the invoked sources are exactly an
initial segment `0, 1, ..., n-1` of the configured order, the result is the
search's result independently of whatever the pinned-source slot holds, and
the slot is not written. -/
theorem chain_retry_reruns_search (c : ChainedTokenCredential)
    (resp : List SourceResp)
    (h : c.retry_sources = true) :
    (c.get_token resp).ranSearch = true ∧
    (c.get_token resp).successful_credential = c.successful_credential ∧
    (c.get_token resp).result = (get_token_impl resp).1.map Prod.snd ∧
    (c.get_token resp).invoked = (get_token_impl resp).2 ∧
    (∃ n, n ≤ resp.length ∧ (c.get_token resp).invoked = List.range n) := by
  have hres : c.get_token resp =
      ⟨(get_token_impl resp).1.map Prod.snd, c.successful_credential,
        (get_token_impl resp).2, true⟩ := by
    simp only [ChainedTokenCredential.get_token, h]
    rfl
  rw [hres]
  refine ⟨rfl, rfl, rfl, rfl, ?_⟩
  exact get_token_impl_invoked_range resp

/-- C6 witness: with `retry_sources = true` and a stale pin on source 1, the
call still re-runs the search from source 0 and leaves the slot alone. -/
theorem chain_retry_reruns_search_witness :
    ((ChainedTokenCredential.mk true (some 1)).get_token
        [Except.ok ⟨"tokenA", 100⟩]).ranSearch = true ∧
    ((ChainedTokenCredential.mk true (some 1)).get_token
        [Except.ok ⟨"tokenA", 100⟩]).successful_credential = some 1 ∧
    ((ChainedTokenCredential.mk true (some 1)).get_token
        [Except.ok ⟨"tokenA", 100⟩]).result =
      (get_token_impl [Except.ok ⟨"tokenA", 100⟩]).1.map Prod.snd ∧
    ((ChainedTokenCredential.mk true (some 1)).get_token
        [Except.ok ⟨"tokenA", 100⟩]).invoked =
      (get_token_impl [Except.ok ⟨"tokenA", 100⟩]).2 ∧
    (∃ n, n ≤ 1 ∧
      ((ChainedTokenCredential.mk true (some 1)).get_token
        [Except.ok ⟨"tokenA", 100⟩]).invoked = List.range n) :=
  chain_retry_reruns_search (ChainedTokenCredential.mk true (some 1))
    [Except.ok ⟨"tokenA", 100⟩] rfl

/-- C7 counterexample: `ChainedTokenCredential` exposes no `clear()` — its
public surface in `src/chained_token_credential.rs` is exactly `new`,
`add_source` and the trait `get_token`. -/
theorem chained_clear_not_exposed :
    "clear" ∉ ChainedTokenCredential.publicMethods := by
  decide

/-- C7 amended: the spec-modelled `TokenCache` clear makes every subsequent
`get_token` fetch afresh, but the chained credential itself exposes no
`clear()` operation, and no call can reset its pinned-source memory: once
pinned, the pin persists across every `get_token` call under either policy. -/
theorem clear_invalidates_cache_but_pin_not_clearable :
    ("clear" ∉ ChainedTokenCredential.publicMethods) ∧
    (∀ (cache : CacheMap) (key : List String) (now : Int) (fetch : SourceResp),
      (TokenCache.get_token (TokenCache.clear cache) key now fetch).fetched = true) ∧
    (∀ (c : ChainedTokenCredential) (resp : List SourceResp) (i : Nat),
      c.successful_credential = some i →
      (c.get_token resp).successful_credential = some i) := by
  refine ⟨by decide, ?_, ?_⟩
  · intro cache key now fetch
    cases fetch <;> rfl
  · intro c resp i hpin
    cases hr : c.retry_sources with
    | true =>
      simp only [ChainedTokenCredential.get_token, hr, if_pos rfl]
      exact hpin
    | false =>
      simp only [ChainedTokenCredential.get_token, hr, if_neg Bool.false_ne_true,
        hpin, get_token_noretry]

/-- C7 amended witness: after clearing the spec-modelled cache the next call
for a concrete key fetches afresh, and a concrete pinned chain keeps its pin
through a further call. -/
theorem clear_invalidates_cache_but_pin_not_clearable_witness :
    (TokenCache.get_token (TokenCache.clear (fun _ => some ⟨"cached", 100⟩))
      ["scope"] 0 (Except.ok ⟨"fresh", 200⟩)).fetched = true ∧
    ((ChainedTokenCredential.mk false (some 0)).get_token
      [Except.ok ⟨"tokenA", 100⟩]).successful_credential = some 0 :=
  ⟨clear_invalidates_cache_but_pin_not_clearable.2.1
      (fun _ => some ⟨"cached", 100⟩) ["scope"] 0 (Except.ok ⟨"fresh", 200⟩),
    clear_invalidates_cache_but_pin_not_clearable.2.2
      (ChainedTokenCredential.mk false (some 0)) [Except.ok ⟨"tokenA", 100⟩] 0 rfl⟩

/-- C8 counterexample: in `AzureauthCliCredential::get_access_token` the
"not available" failure carries `ErrorKind::Other` while the "authentication
failed" failure carries `ErrorKind::Credential` — two different kinds, not
the same kind. -/
theorem azureauth_error_kinds_differ :
    AzureauthCliCredential.get_access_token none
        (Except.error IoErrorKind.notFound) parseUnused =
      Except.error (RsError.leaf ErrorKind.other "azureauth CLI not installed") ∧
    AzureauthCliCredential.get_access_token (some "azureauth")
        (Except.ok ⟨false, "", "denied"⟩) parseUnused =
      Except.error (RsError.leaf ErrorKind.credential
        "'azureauth' command failed: denied") ∧
    ErrorKind.other ≠ ErrorKind.credential :=
  ⟨rfl, rfl, by decide⟩

/-- C8 amended: the two distinguished azureauth failures are surfaced with
different kinds at the source — "not available" as `ErrorKind::Other` with
message "azureauth CLI not installed", "authentication failed" as
`ErrorKind::Credential` with message "'azureauth' command failed: <stderr>" —
and it is the chain's aggregate error that surfaces both under the single
`Credential` kind with the distinction preserved in the message text. -/
theorem azureauth_error_kind_distinction :
    (∀ (run : Except IoErrorKind ProcessOutput)
        (parse : String → Except RsError CliTokenResponse),
      AzureauthCliCredential.get_access_token none run parse =
        Except.error (RsError.leaf ErrorKind.other "azureauth CLI not installed")) ∧
    (∀ (cmd : String) (parse : String → Except RsError CliTokenResponse),
      AzureauthCliCredential.get_access_token (some cmd)
          (Except.error IoErrorKind.notFound) parse =
        Except.error (RsError.leaf ErrorKind.other "azureauth CLI not installed")) ∧
    (∀ (cmd : String) (output : ProcessOutput)
        (parse : String → Except RsError CliTokenResponse),
      output.success = false →
      AzureauthCliCredential.get_access_token (some cmd) (Except.ok output) parse =
        Except.error (RsError.leaf ErrorKind.credential
          ("'azureauth' command failed: " ++ output.stderr))) ∧
    (∀ e1 e2 : RsError,
      (get_token_impl [Except.error e1, Except.error e2]).1 =
        Except.error (RsError.leaf ErrorKind.credential
          (aggregateHeader ++
            (String.intercalate " - " e1.chain ++ "\n" ++
              String.intercalate " - " e2.chain)))) := by
  refine ⟨?_, ?_, ?_, ?_⟩
  · intro run parse
    rfl
  · intro cmd parse
    rfl
  · intro cmd output parse hfail
    simp only [AzureauthCliCredential.get_access_token, hfail]
    rfl
  · intro e1 e2
    have h := get_token_impl_go_all_fail [e1, e2] 0 []
    simp only [List.map_cons, List.map_nil, List.nil_append] at h
    rw [get_token_impl, h]
    simp [format_aggregate_error, String.intercalate, String.intercalate.go]

/-- C8 amended witness: the concrete "not installed" and "denied" failures
carry their messages as stated, and a chain over exactly those two failures
aggregates them under one `Credential` error listing both, in order. -/
theorem azureauth_error_kind_distinction_witness :
    AzureauthCliCredential.get_access_token none
        (Except.error (IoErrorKind.otherKind "Interrupted")) parseUnused =
      Except.error (RsError.leaf ErrorKind.other "azureauth CLI not installed") ∧
    AzureauthCliCredential.get_access_token (some "azureauth")
        (Except.ok ⟨false, "", "denied"⟩) parseUnused =
      Except.error (RsError.leaf ErrorKind.credential
        ("'azureauth' command failed: " ++ "denied")) ∧
    (get_token_impl
        [Except.error (RsError.leaf ErrorKind.other "azureauth CLI not installed"),
         Except.error (RsError.leaf ErrorKind.credential
          "'azureauth' command failed: denied")]).1 =
      Except.error (RsError.leaf ErrorKind.credential
        (aggregateHeader ++
          (String.intercalate " - "
              (RsError.leaf ErrorKind.other "azureauth CLI not installed").chain ++
            "\n" ++
            String.intercalate " - "
              (RsError.leaf ErrorKind.credential
                "'azureauth' command failed: denied").chain))) :=
  ⟨azureauth_error_kind_distinction.1 (Except.error (IoErrorKind.otherKind "Interrupted"))
      parseUnused,
    azureauth_error_kind_distinction.2.2.1 "azureauth" ⟨false, "", "denied"⟩
      parseUnused rfl,
    azureauth_error_kind_distinction.2.2.2
      (RsError.leaf ErrorKind.other "azureauth CLI not installed")
      (RsError.leaf ErrorKind.credential "'azureauth' command failed: denied")⟩

/-- C10: refresh token consumed even on a failed exchange —
`DeviceCodeCredential::get_access_token` removes the stored refresh token for
the scope list before the exchange; a failed exchange propagates its error
with the old token already discarded (other keys untouched), the new refresh
token is stored only after a successful exchange, and a subsequent call for
those scopes runs the interactive device-code flow, its outcome determined by
the flow alone. -/
theorem devicecode_refresh_consumed_on_failure (scopes : List String)
    (rt : RefreshTokenMap) (tok : String)
    (exch : String → Except RsError RefreshTokenResponseM) (e : RsError)
    (flow : Except RsError DeviceAuthM) (now : Int)
    (hstored : rt scopes = some tok)
    (hfail : exch tok = Except.error e) :
    (DeviceCodeCredential.get_access_token scopes rt exch flow now).1 =
      Except.error e ∧
    (DeviceCodeCredential.get_access_token scopes rt exch flow now).2 scopes =
      none ∧
    (∀ k, k ≠ scopes →
      (DeviceCodeCredential.get_access_token scopes rt exch flow now).2 k = rt k) ∧
    (∀ (exch2 : String → Except RsError RefreshTokenResponseM) (r : RefreshTokenResponseM),
      exch2 tok = Except.ok r →
      (DeviceCodeCredential.get_access_token scopes rt exch2 flow now).2 scopes =
        some r.refresh_token) ∧
    (∀ (exch2 : String → Except RsError RefreshTokenResponseM)
        (flow2 : Except RsError DeviceAuthM) (now2 : Int),
      (DeviceCodeCredential.get_access_token scopes
          (DeviceCodeCredential.get_access_token scopes rt exch flow now).2
          exch2 flow2 now2).1 =
        (match flow2 with
         | Except.error e2 => Except.error e2
         | Except.ok auth => Except.ok ⟨auth.access_token, now2 + auth.expires_in⟩)) := by
  have hcall : DeviceCodeCredential.get_access_token scopes rt exch flow now =
      (Except.error e, fun k => if k = scopes then none else rt k) := by
    simp only [DeviceCodeCredential.get_access_token, hstored, hfail]
  refine ⟨by rw [hcall], by rw [hcall]; simp, ?_, ?_, ?_⟩
  · intro k hk
    rw [hcall]
    simp [hk]
  · intro exch2 r hok
    simp only [DeviceCodeCredential.get_access_token, hstored, hok]
    simp
  · intro exch2 flow2 now2
    rw [hcall]
    simp only [DeviceCodeCredential.get_access_token, if_pos rfl]
    cases flow2 with
    | error e2 => rfl
    | ok auth =>
      cases hrt : auth.refresh_token <;> simp [hrt]

/-- C10 witness: a concrete failing exchange — the stored refresh token for
the scopes is gone afterwards, an unrelated key survives, a succeeding
exchange would have stored the new token, and the follow-up call is decided
by the interactive flow. -/
theorem devicecode_refresh_consumed_on_failure_witness :
    (DeviceCodeCredential.get_access_token ["scopeA"]
        (fun k => if k = ["scopeA"] then some "rt0" else none) 
        (fun _ => Except.error (RsError.leaf ErrorKind.credential "exchange refused"))
        (Except.ok ⟨"flowToken", 60, some "rt1"⟩) 0).1 =
      Except.error (RsError.leaf ErrorKind.credential "exchange refused") ∧
    (DeviceCodeCredential.get_access_token ["scopeA"]
        (fun k => if k = ["scopeA"] then some "rt0" else none)
        (fun _ => Except.error (RsError.leaf ErrorKind.credential "exchange refused"))
        (Except.ok ⟨"flowToken", 60, some "rt1"⟩) 0).2 ["scopeA"] = none ∧
    (∀ k, k ≠ ["scopeA"] →
      (DeviceCodeCredential.get_access_token ["scopeA"]
        (fun k2 => if k2 = ["scopeA"] then some "rt0" else none)
        (fun _ => Except.error (RsError.leaf ErrorKind.credential "exchange refused"))
        (Except.ok ⟨"flowToken", 60, some "rt1"⟩) 0).2 k =
      (fun k2 => if k2 = ["scopeA"] then some "rt0" else none) k) ∧
    (∀ (exch2 : String → Except RsError RefreshTokenResponseM) (r : RefreshTokenResponseM),
      exch2 "rt0" = Except.ok r →
      (DeviceCodeCredential.get_access_token ["scopeA"]
        (fun k => if k = ["scopeA"] then some "rt0" else none)
        exch2 (Except.ok ⟨"flowToken", 60, some "rt1"⟩) 0).2 ["scopeA"] =
        some r.refresh_token) ∧
    (∀ (exch2 : String → Except RsError RefreshTokenResponseM)
        (flow2 : Except RsError DeviceAuthM) (now2 : Int),
      (DeviceCodeCredential.get_access_token ["scopeA"]
          (DeviceCodeCredential.get_access_token ["scopeA"]
            (fun k => if k = ["scopeA"] then some "rt0" else none)
            (fun _ => Except.error (RsError.leaf ErrorKind.credential "exchange refused"))
            (Except.ok ⟨"flowToken", 60, some "rt1"⟩) 0).2
          exch2 flow2 now2).1 =
        (match flow2 with
         | Except.error e2 => Except.error e2
         | Except.ok auth => Except.ok ⟨auth.access_token, now2 + auth.expires_in⟩)) :=
  devicecode_refresh_consumed_on_failure ["scopeA"]
    (fun k => if k = ["scopeA"] then some "rt0" else none) "rt0"
    (fun _ => Except.error (RsError.leaf ErrorKind.credential "exchange refused"))
    (RsError.leaf ErrorKind.credential "exchange refused")
    (Except.ok ⟨"flowToken", 60, some "rt1"⟩) 0 rfl rfl

/-- One step preserves `CacheInv` when every fetch attempt yields `tok`. -/
theorem cacheInv_step {τ : Type} (tok : τ) (N : Nat) (s s2 : CacheSysState τ)
    (hstep : CacheStep N (fun _ => Except.ok tok) s s2) (hinv : CacheInv tok s) :
    CacheInv tok s2 := by
  obtain ⟨h1, h2, h3, h4, h5, h6⟩ := hinv
  cases hstep with
  | hit i t hi hs ht =>
    refine ⟨h1, h2, h3, h4, h5, ?_⟩
    intro i2 r hdone
    dsimp only at hdone
    by_cases hji : i2 = i
    · subst hji
      rw [if_pos rfl] at hdone
      injection hdone with hdone
      subst hdone
      rcases h2 with h2 | h2
      · rw [h2] at ht
        cases ht
      · rw [h2] at ht
        injection ht with ht2
        subst ht2
        exact ⟨rfl, h3 _ h2⟩
    · rw [if_neg hji] at hdone
      exact h6 i2 r hdone
  | beginFetch i hi hs hslot hf =>
    have hfz : s.fetches = 0 := h5 hslot hf
    refine ⟨?_, Or.inl rfl, ?_, ?_, ?_, ?_⟩
    · show s.fetches + 1 ≤ 1
      omega
    · intro t ht2
      cases ht2
    · intro k ws hf2
      refine ⟨?_, rfl⟩
      show s.fetches + 1 = 1
      omega
    · intro _ hf2
      cases hf2
    · intro i2 r hdone
      dsimp only at hdone
      by_cases hji : i2 = i
      · subst hji
        rw [if_pos rfl] at hdone
        cases hdone
      · rw [if_neg hji] at hdone
        obtain ⟨hr, _⟩ := h6 i2 r hdone
        refine ⟨hr, ?_⟩
        show s.fetches + 1 = 1
        omega
  | join i k ws hi hs hslot hf =>
    obtain ⟨hfet, _⟩ := h4 k ws hf
    refine ⟨h1, h2, h3, ?_, ?_, ?_⟩
    · intro k2 ws2 hf2
      exact ⟨hfet, hslot⟩
    · intro _ hf2
      cases hf2
    · intro i2 r hdone
      dsimp only at hdone
      by_cases hji : i2 = i
      · subst hji
        rw [if_pos rfl] at hdone
        cases hdone
      · rw [if_neg hji] at hdone
        exact h6 i2 r hdone
  | complete k ws hf =>
    obtain ⟨hfet, hslot⟩ := h4 k ws hf
    refine ⟨h1, Or.inr rfl, ?_, ?_, ?_, ?_⟩
    · intro t ht2
      exact hfet
    · intro k2 ws2 hf2
      cases hf2
    · intro hslot2 _
      cases hslot2
    · intro i2 r hdone
      dsimp only at hdone
      by_cases hmem : i2 ∈ ws
      · rw [if_pos hmem] at hdone
        injection hdone with hdone
        subst hdone
        exact ⟨rfl, hfet⟩
      · rw [if_neg hmem] at hdone
        obtain ⟨hr, h6f⟩ := h6 i2 r hdone
        exact ⟨hr, h6f⟩

/-- Every reachable state satisfies `CacheInv` when the fetch yields `tok`. -/
theorem cacheInv_reachable {τ : Type} (tok : τ) (N : Nat) (s : CacheSysState τ)
    (h : CacheReachable N (fun _ => Except.ok tok) s) : CacheInv tok s := by
  induction h with
  | refl =>
    refine ⟨Nat.zero_le 1, Or.inl rfl, ?_, ?_, ?_, ?_⟩
    · intro t ht
      cases ht
    · intro k ws hf
      cases hf
    · intro _ _
      rfl
    · intro i r hd
      cases hd
  | tail _ hstep ih => exact cacheInv_step tok N _ _ hstep ih

/-- One step preserves `CacheFailInv` when every fetch attempt fails. -/
theorem cacheFailInv_step {τ : Type} (N : Nat) (s s2 : CacheSysState τ)
    (hstep : CacheStep N (fun _ => Except.error ()) s s2) (hinv : CacheFailInv s) :
    CacheFailInv s2 := by
  obtain ⟨h1, h2⟩ := hinv
  cases hstep with
  | hit i t hi hs ht =>
    rw [h1] at ht
    cases ht
  | beginFetch i hi hs hslot hf =>
    refine ⟨rfl, ?_⟩
    intro i2 r hdone
    dsimp only at hdone
    by_cases hji : i2 = i
    · subst hji
      rw [if_pos rfl] at hdone
      cases hdone
    · rw [if_neg hji] at hdone
      exact h2 i2 r hdone
  | join i k ws hi hs hslot hf =>
    refine ⟨h1, ?_⟩
    intro i2 r hdone
    dsimp only at hdone
    by_cases hji : i2 = i
    · subst hji
      rw [if_pos rfl] at hdone
      cases hdone
    · rw [if_neg hji] at hdone
      exact h2 i2 r hdone
  | complete k ws hf =>
    refine ⟨h1, ?_⟩
    intro i2 r hdone
    dsimp only at hdone
    by_cases hmem : i2 ∈ ws
    · rw [if_pos hmem] at hdone
      injection hdone with hdone
      subst hdone
      rfl
    · rw [if_neg hmem] at hdone
      exact h2 i2 r hdone

/-- Every reachable state satisfies `CacheFailInv` when every fetch fails. -/
theorem cacheFailInv_reachable {τ : Type} (N : Nat) (s : CacheSysState τ)
    (h : CacheReachable N (fun _ => Except.error ()) s) : CacheFailInv s := by
  induction h with
  | refl =>
    refine ⟨rfl, ?_⟩
    intro i r hd
    cases hd
  | tail _ hstep ih => exact cacheFailInv_step N _ _ hstep ih

/-- C1: single-flight — in the spec-modelled interleaved semantics of one
cache key, when every fetch attempt yields the same token the fetch is
invoked at most once in any reachable state, and once all `N` concurrent
callers have finished it was invoked exactly once and every caller received
that single fetch's token; when the fetch fails, every finished caller
received a failure. -/
theorem tokenCache_single_flight :
    (∀ (τ : Type) (tok : τ) (N : Nat) (s : CacheSysState τ),
      CacheReachable N (fun _ => Except.ok tok) s →
      s.fetches ≤ 1 ∧
      ((0 < N ∧ ∀ i, i < N → ∃ r, s.threads i = ThreadSt.done r) →
        s.fetches = 1 ∧
          ∀ i, i < N → s.threads i = ThreadSt.done (Except.ok tok))) ∧
    (∀ (τ : Type) (N : Nat) (s : CacheSysState τ),
      CacheReachable N (fun _ => Except.error ()) s →
      ∀ i r, s.threads i = ThreadSt.done r → r = Except.error ()) := by
  constructor
  · intro τ tok N s h
    obtain ⟨h1, _, _, _, _, h6⟩ := cacheInv_reachable tok N s h
    refine ⟨h1, ?_⟩
    rintro ⟨hN, hall⟩
    obtain ⟨r0, hr0⟩ := hall 0 hN
    obtain ⟨_, hfet⟩ := h6 0 r0 hr0
    refine ⟨hfet, ?_⟩
    intro i hi
    obtain ⟨r, hr⟩ := hall i hi
    obtain ⟨hok, _⟩ := h6 i r hr
    rw [hr, hok]
  · intro τ N s h
    exact (cacheFailInv_reachable N s h).2

/-- Intermediate state of a concrete single-caller run: caller 0 has started
the one fetch and is awaiting it. -/
def cacheRunMid : CacheSysState Nat :=
  ⟨none, some (0, [0]), 1,
    fun j => if j = 0 then ThreadSt.waiting else ThreadSt.start⟩

/-- Final state of the concrete run: the fetch returned token 7, caller 0 is
done with it. -/
def cacheRunEnd : CacheSysState Nat :=
  ⟨some 7, none, 1,
    fun j => if j ∈ [0] then ThreadSt.done (Except.ok 7) else cacheRunMid.threads j⟩

/-- C1 witness: a concrete two-step execution (begin the fetch, complete it)
reaches a state where the single caller holds the fetched token and the fetch
ran exactly once. -/
theorem tokenCache_single_flight_witness :
    cacheRunEnd.fetches ≤ 1 ∧
    ((0 < 1 ∧ ∀ i, i < 1 → ∃ r, cacheRunEnd.threads i = ThreadSt.done r) →
      cacheRunEnd.fetches = 1 ∧
        ∀ i, i < 1 → cacheRunEnd.threads i = ThreadSt.done (Except.ok 7)) :=
  tokenCache_single_flight.1 Nat 7 1 cacheRunEnd
    (Relation.ReflTransGen.tail
      (Relation.ReflTransGen.tail Relation.ReflTransGen.refl
        (CacheStep.beginFetch (initCacheState Nat) 0 Nat.one_pos rfl rfl rfl))
      (CacheStep.complete cacheRunMid 0 [0] rfl))
